import Mathlib

/-!
# Verification of the hydrallm retry/fallback proxy core

A shallow embedding of the request-rewriting, authentication, response
handling and retry-loop logic of the hydrallm LLM proxy, together with
theorems settling the specification claims about those functions.

Modelling conventions:
* Go strings are modelled as lists of characters (`Str`); every constant
  occurring in the modelled code is ASCII, so byte-level and
  character-level indexing agree on everything the code inspects.
* Byte payloads of HTTP response bodies are modelled as `List Nat`.
* The process environment (`os.Getenv`) is an explicit parameter
  `env : Str → Str`, where the empty string means "unset or empty",
  exactly the distinction the Go code makes.
* gzip decompression is kept abstract as a parameter
  `gunzip : List Nat → Option (List Nat)` (`none` models a decoder error).
* Time (waits, timeouts), logging and context cancellation are not part
  of any modelled claim and are omitted.
-/

namespace HydraLLM

/-- Go strings, modelled as lists of characters. -/
abbrev Str := List Char

/-- Convert a Lean string literal to the `Str` model. -/
def str (s : String) : Str := s.data

/-! ## Environment reference resolution (config.go, resolveEnvOrValue)

Go source:

    func resolveEnvOrValue(v string) string {
        if v == "" {
            return ""
        }
        if len(v) > 1 && v[0] == '$' {
            if envVal := os.Getenv(v[1:]); envVal != "" {
                return envVal
            }
        }
        return v
    }
-/

/-- `resolveEnvOrValue` from the configuration loader.  `env` models the
process environment: `env name = []` means the variable is unset or empty,
as with `os.Getenv`. -/
def resolveEnvOrValue (env : Str → Str) (v : Str) : Str :=
  if v = [] then []
  else if 1 < v.length ∧ v.head? = some '$' then
    if env v.tail ≠ [] then env v.tail else v
  else v

/-- A concrete environment in which the variable A is set to the literal
string dollar-B and B is set to foo; every other variable is unset. -/
def envChained : Str → Str := fun name =>
  if name = str "A" then str "$B"
  else if name = str "B" then str "foo"
  else []

/-- An environment with the single variable 100 set to cash. -/
def envNumericName : Str → Str := fun name =>
  if name = str "100" then str "cash" else []

/-- C3 counterexample: with the environment `envChained` (A set to the
literal dollar-B, B set to foo), resolving the value dollar-A once yields
dollar-B, but resolving a second time yields foo, so
resolveEnvOrValue ∘ resolveEnvOrValue ≠ resolveEnvOrValue at this input. -/
theorem resolveEnvOrValue_not_idempotent :
    ¬ (resolveEnvOrValue envChained (resolveEnvOrValue envChained (str "$A"))
        = resolveEnvOrValue envChained (str "$A")) := by
  decide

/-- C3 (amended): resolveEnvOrValue is idempotent provided every value
stored in the environment is itself a fixed point of resolution (in
particular whenever no environment value is again of the shape dollar-NAME
with NAME set non-empty).  Without that proviso a second application can
resolve once more, as the counterexample shows. -/
theorem resolveEnvOrValue_idempotent_of_fixed_env (env : Str → Str)
    (hfix : ∀ name, resolveEnvOrValue env (env name) = env name) (v : Str) :
    resolveEnvOrValue env (resolveEnvOrValue env v) = resolveEnvOrValue env v := by
  by_cases hv : v = []
  · subst hv
    rfl
  · by_cases hdollar : 1 < v.length ∧ v.head? = some '$'
    · by_cases henv : env v.tail = []
      · have hres : resolveEnvOrValue env v = v := by
          unfold resolveEnvOrValue
          rw [if_neg hv, if_pos hdollar, if_neg (by simp [henv])]
        rw [hres]
        exact hres
      · have hres : resolveEnvOrValue env v = env v.tail := by
          unfold resolveEnvOrValue
          rw [if_neg hv, if_pos hdollar, if_pos henv]
        rw [hres]
        exact hfix v.tail
    · have hres : resolveEnvOrValue env v = v := by
        unfold resolveEnvOrValue
        rw [if_neg hv, if_neg hdollar]
      rw [hres]
      exact hres

/-- Witness for the amended C3 theorem at a concrete input: the
environment `envNumericName` stores only the fixed-point value cash, and
resolution of the value dollar-100 is indeed idempotent there. -/
theorem resolveEnvOrValue_idempotent_witness :
    (∀ name, resolveEnvOrValue envNumericName (envNumericName name)
        = envNumericName name) ∧
    resolveEnvOrValue envNumericName
        (resolveEnvOrValue envNumericName (str "$100"))
      = resolveEnvOrValue envNumericName (str "$100") := by
  have hfix : ∀ name, resolveEnvOrValue envNumericName (envNumericName name)
      = envNumericName name := by
    intro name
    by_cases h1 : name = str "100"
    · have hval : envNumericName name = str "cash" := by simp [envNumericName, h1]
      rw [hval]
      decide
    · have hval : envNumericName name = [] := by simp [envNumericName, h1]
      rw [hval]
      decide
  exact ⟨hfix,
    resolveEnvOrValue_idempotent_of_fixed_env envNumericName hfix (str "$100")⟩

/-- C10: the whole remainder after a leading dollar sign is the variable
name, with no restriction on its characters; the empty string, the lone
dollar sign, and strings not starting with a dollar sign are returned
unchanged; a resolvable reference returns the environment value, an
unresolvable one returns the literal input. -/
theorem resolveEnvOrValue_name_is_remainder (env : Str → Str) (s : Str)
    (hs : s ≠ []) :
    resolveEnvOrValue env ('$' :: s)
        = (if env s ≠ [] then env s else '$' :: s) ∧
    resolveEnvOrValue env [] = [] ∧
    resolveEnvOrValue env ['$'] = ['$'] ∧
    (∀ v : Str, v.head? ≠ some '$' → resolveEnvOrValue env v = v) := by
  refine ⟨?_, rfl, rfl, ?_⟩
  · have hlen : 1 < ('$' :: s).length := by
      cases s with
      | nil => exact absurd rfl hs
      | cons a t => simp [List.length_cons]
    unfold resolveEnvOrValue
    rw [if_neg (by simp), if_pos ⟨hlen, rfl⟩]
    simp only [List.tail_cons]
  · intro v hv
    unfold resolveEnvOrValue
    cases v with
    | nil => simp
    | cons a t =>
      rw [if_neg (by simp)]
      rw [if_neg (by
        intro hcond
        exact hv hcond.2)]

/-- Witness for C10 at concrete inputs: the name 100 (digits only, as in
dollar-100) is looked up in full and yields cash, while dollar-FOO/bar is
unset and is returned literally. -/
theorem resolveEnvOrValue_name_is_remainder_witness :
    str "100" ≠ [] ∧
    resolveEnvOrValue envNumericName (str "$100")
      = (if envNumericName (str "100") ≠ [] then envNumericName (str "100")
         else '$' :: str "100") := by
  refine ⟨by decide, ?_⟩
  have h := resolveEnvOrValue_name_is_remainder envNumericName (str "100") (by decide)
  exact h.1

/-! ## HTTP model: headers, URLs, requests

http.Header is modelled as a finite map from header name to value
(`Header.Get` returns the empty string for a missing key, which `hGet`
reproduces).  The modelled code always spells each header name the same
way, so Go's canonical-key normalization is the identity on everything it
touches and a map keyed by the literal spellings is faithful. -/

/-- HTTP headers: name to optional value. -/
abbrev Headers := Str → Option Str

/-- http.Header.Set. -/
def hSet (h : Headers) (key val : Str) : Headers :=
  fun k => if k = key then some val else h k

/-- http.Header.Del. -/
def hDel (h : Headers) (key : Str) : Headers :=
  fun k => if k = key then none else h k

/-- http.Header.Get: the empty string when the header is absent. -/
def hGet (h : Headers) (key : Str) : Str :=
  (h key).getD []

/-- The parts of net/url.URL that the modelled code reads or writes:
Scheme, Host, Path, and RawQuery. -/
structure URL where
  scheme : Str
  host : Str
  path : Str
  query : Str

/-- The parts of http.Request used by the modelled code: its URL, the
Host field, and the header map. -/
structure Request where
  url : URL
  host : Str
  headers : Headers

/-- The fields of the Provider config entity used by the modelled code
(fields StripVersionPrefix and ParsedURL in the Go source; the AWS
credential fields feed only the unmodelled SigV4 signer and are omitted). -/
structure Provider where
  apiKey : Str
  stripVersionSeg : Bool
  parsedURL : URL

/-! ## Target URL construction (transport.go, buildTargetURL) -/

/-- strings.TrimRight(s, "/"): remove every trailing slash. -/
def trimTrailingSlashes (s : Str) : Str :=
  (s.reverse.dropWhile (fun c => c = '/')).reverse

/-- versionPrefixRegex.ReplaceAllString(p, ""): the regular expression
is anchored (caret, slash, v, one or more ASCII digits), so the rewrite
deletes the longest leading match of slash-v-digits, if any.
(StripVersionPrefix handling in the Go source.) -/
def stripVersionSeg (path : Str) : Str :=
  match path with
  | '/' :: 'v' :: rest =>
    if rest.takeWhile (fun c => c.isDigit) = [] then path
    else rest.dropWhile (fun c => c.isDigit)
  | _ => path

/-- RetryTransport.buildTargetURL: scheme and host come from the provider
base URL, the path is the slash-trimmed base path concatenated with the
(possibly version-stripped) request path, the query is inherited from the
original URL through the struct copy, and the Host field is set to the
provider host.  Mirrors the Go source line by line. -/
def buildTargetURL (provider : Provider) (newReq origReq : Request) : Request :=
  let targetURL := provider.parsedURL
  let reqPath :=
    if provider.stripVersionSeg then stripVersionSeg origReq.url.path
    else origReq.url.path
  let basePath := trimTrailingSlashes targetURL.path
  { newReq with
      url := { origReq.url with
                scheme := targetURL.scheme
                host := targetURL.host
                path := basePath ++ reqPath }
      host := targetURL.host }

/-- Whether a string contains two consecutive slashes. -/
def hasDoubleSlash : Str → Bool
  | [] => false
  | [_] => false
  | a :: b :: rest => (a = '/' && b = '/') || hasDoubleSlash (b :: rest)

/-- The head of a dropWhile survivor fails the predicate. -/
theorem head_dropWhile_not (pr : Char → Bool) :
    ∀ (l : Str) (a : Char), (l.dropWhile pr).head? = some a → pr a = false := by
  intro l
  induction l with
  | nil => intro a h; simp [List.dropWhile] at h
  | cons c t ih =>
    intro a h
    rw [List.dropWhile_cons] at h
    by_cases hc : pr c
    · rw [if_pos hc] at h
      exact ih a h
    · rw [if_neg hc] at h
      simp only [List.head?_cons, Option.some.injEq] at h
      rw [← h]
      exact Bool.of_not_eq_true hc

/-- A trailing-slash-trimmed string never ends in a slash. -/
theorem trimTrailingSlashes_getLast (s : Str) (c : Char)
    (h : (trimTrailingSlashes s).getLast? = some c) : c ≠ '/' := by
  unfold trimTrailingSlashes at h
  intro hc
  subst hc
  set d := s.reverse.dropWhile (fun ch => ch = '/') with hd
  cases hdc : d with
  | nil => rw [hdc] at h; simp at h
  | cons x t =>
    rw [hdc] at h
    rw [List.reverse_cons] at h
    rw [List.getLast?_concat] at h
    have hx : x = '/' := by
      simpa using h
    have hhead : d.head? = some x := by rw [hdc]; rfl
    have := head_dropWhile_not (fun ch => ch = '/') s.reverse x (hd ▸ hhead)
    rw [hx] at this
    simp at this

/-- Appending two double-slash-free strings yields a double-slash-free
string provided the left part does not end in a slash. -/
theorem hasDoubleSlash_append (xs ys : Str)
    (hx : hasDoubleSlash xs = false) (hy : hasDoubleSlash ys = false)
    (hlast : ∀ c, xs.getLast? = some c → c ≠ '/') :
    hasDoubleSlash (xs ++ ys) = false := by
  induction xs with
  | nil => simpa using hy
  | cons a t ih =>
    cases t with
    | nil =>
      cases ys with
      | nil => simpa using hx
      | cons b u =>
        show hasDoubleSlash (a :: b :: u) = false
        unfold hasDoubleSlash
        have ha : a ≠ '/' := hlast a rfl
        simp only [Bool.or_eq_false_iff]
        constructor
        · simp [ha]
        · exact hy
    | cons b t2 =>
      show hasDoubleSlash (a :: b :: (t2 ++ ys)) = false
      unfold hasDoubleSlash at hx ⊢
      simp only [Bool.or_eq_false_iff] at hx ⊢
      constructor
      · exact hx.1
      · exact ih hx.2 (by
          intro c hc
          apply hlast c
          rwa [List.getLast?_cons_cons])

/-- Every trailing slash of the base path is removed, so the join point
of base path and request path never produces a double slash. -/
theorem hasDoubleSlash_trim_append (base rest : Str)
    (hbase : hasDoubleSlash (trimTrailingSlashes base) = false)
    (hrest : hasDoubleSlash rest = false) :
    hasDoubleSlash (trimTrailingSlashes base ++ rest) = false :=
  hasDoubleSlash_append _ _ hbase hrest (trimTrailingSlashes_getLast base)

/-- dropWhile eats exactly a maximal all-true prefix. -/
theorem dropWhile_all_append (pr : Char → Bool) :
    ∀ (ds rest : Str), (∀ c ∈ ds, pr c = true) →
      (∀ c, rest.head? = some c → pr c = false) →
      (ds ++ rest).dropWhile pr = rest := by
  intro ds
  induction ds with
  | nil =>
    intro rest _ hrest
    cases rest with
    | nil => rfl
    | cons b u =>
      have hb : pr b = false := hrest b rfl
      simp [List.dropWhile_cons, hb]
  | cons d dt ih =>
    intro rest hds hrest
    have hd : pr d = true := hds d (List.mem_cons_self d dt)
    simp only [List.cons_append, List.dropWhile_cons, hd, if_true]
    exact ih rest (fun c hc => hds c (List.mem_cons_of_mem d hc)) hrest

/-- A provider whose base URL path is /v1 (trailing slashes already
trimmed by validation). -/
def providerV1 : Provider :=
  { apiKey := []
    stripVersionSeg := false
    parsedURL := { scheme := str "https", host := str "h", path := str "/v1",
                   query := [] } }

/-- An incoming request whose path begins with two slashes, as an HTTP
client may legally send. -/
def requestDoubleSlash : Request :=
  { url := { scheme := str "http", host := str "local", path := str "//chat",
             query := [] }
    host := str "local"
    headers := fun _ => none }

/-- C5 counterexample: with base path /v1 and incoming path //chat the
constructed outgoing path /v1//chat contains consecutive slashes, so the
universally quantified no-double-slash clause of the claim is false: the
concatenation only avoids creating a double slash at the join point, it
does not remove double slashes already present in the request path. -/
theorem buildTargetURL_double_slash_counterexample :
    hasDoubleSlash
      (buildTargetURL providerV1 requestDoubleSlash requestDoubleSlash).url.path
      = true := by
  decide

/-- C5 (amended): buildTargetURL takes scheme and host from the provider
base URL, sets the request Host field to the provider host, preserves the
original query string, sets the path to the slash-trimmed base path
concatenated with the request path (the longest leading slash-v-digits
segment of the request path being removed first when the provider has the
strip flag), and — provided neither the trimmed base path nor the
(stripped) request path already contains consecutive slashes — the
resulting path contains no consecutive slashes: trimming every trailing
slash of the base means the join point can never create one.  The final
clause characterizes the stripped segment as maximal. -/
theorem buildTargetURL_spec (provider : Provider) (newReq origReq : Request) :
    (buildTargetURL provider newReq origReq).url.scheme
        = provider.parsedURL.scheme ∧
    (buildTargetURL provider newReq origReq).url.host
        = provider.parsedURL.host ∧
    (buildTargetURL provider newReq origReq).host = provider.parsedURL.host ∧
    (buildTargetURL provider newReq origReq).url.query = origReq.url.query ∧
    (buildTargetURL provider newReq origReq).url.path
        = trimTrailingSlashes provider.parsedURL.path ++
          (if provider.stripVersionSeg then stripVersionSeg origReq.url.path
           else origReq.url.path) ∧
    ((hasDoubleSlash (trimTrailingSlashes provider.parsedURL.path) = false) →
     (hasDoubleSlash
        (if provider.stripVersionSeg then stripVersionSeg origReq.url.path
         else origReq.url.path) = false) →
     hasDoubleSlash (buildTargetURL provider newReq origReq).url.path = false) ∧
    (∀ ds rest : Str, ds ≠ [] → (∀ c ∈ ds, c.isDigit = true) →
      (∀ c, rest.head? = some c → c.isDigit = false) →
      stripVersionSeg ('/' :: 'v' :: (ds ++ rest)) = rest) := by
  refine ⟨rfl, rfl, rfl, rfl, rfl, ?_, ?_⟩
  · intro hbase hrest
    exact hasDoubleSlash_trim_append _ _ hbase hrest
  · intro ds rest hne hds hrest
    unfold stripVersionSeg
    cases ds with
    | nil => exact absurd rfl hne
    | cons d dt =>
      have hd : d.isDigit = true := hds d (List.mem_cons_self d dt)
      have htake : ((d :: dt) ++ rest).takeWhile (fun c => c.isDigit) ≠ [] := by
        simp [List.takeWhile_cons, hd]
      simp only [List.cons_append]
      rw [if_neg (by simpa using htake)]
      exact dropWhile_all_append (fun c => c.isDigit) (d :: dt) rest hds hrest

/-- A request asking for /v2/chat, used as the C5 witness input. -/
def requestV2 : Request :=
  { url := { scheme := str "http", host := str "local", path := str "/v2/chat",
             query := str "a=b" }
    host := str "local"
    headers := fun _ => none }

/-- A provider with base path /base and the version-strip flag on. -/
def providerStrip : Provider :=
  { apiKey := []
    stripVersionSeg := true
    parsedURL := { scheme := str "https", host := str "api", path := str "/base/",
                   query := [] } }

/-- Witness for the amended C5 theorem at concrete inputs: base path
/base/ (trimmed to /base) and request path /v2/chat (stripped to /chat)
satisfy the double-slash-free hypotheses, and the constructed path is
double-slash-free; the maximality clause fires on the digit segment 2
followed by /chat. -/
theorem buildTargetURL_spec_witness :
    (hasDoubleSlash (trimTrailingSlashes providerStrip.parsedURL.path) = false ∧
     hasDoubleSlash
       (if providerStrip.stripVersionSeg then stripVersionSeg requestV2.url.path
        else requestV2.url.path) = false ∧
     str "2" ≠ [] ∧ (∀ c ∈ str "2", c.isDigit = true) ∧
     (∀ c, (str "/chat").head? = some c → c.isDigit = false)) ∧
    (hasDoubleSlash (buildTargetURL providerStrip requestV2 requestV2).url.path
        = false ∧
     stripVersionSeg ('/' :: 'v' :: (str "2" ++ str "/chat")) = str "/chat") := by
  refine ⟨⟨by decide, by decide, by decide, by decide, by decide⟩, ?_, ?_⟩
  · exact (buildTargetURL_spec providerStrip requestV2 requestV2).2.2.2.2.2.1
      (by decide) (by decide)
  · exact (buildTargetURL_spec providerStrip requestV2 requestV2).2.2.2.2.2.2
      (str "2") (str "/chat") (by decide) (by decide) (by decide)

/-! ## Authorization headers (transport.go, setAuthHeaders)

Go source:

    apiKey := provider.GetAPIKey()
    switch modelType {
    case "anthropic":
        if apiKey == "-" {
            req.Header.Del("x-api-key")
        } else if apiKey != "" {
            req.Header.Set("x-api-key", apiKey)
        }
        req.Header.Set("anthropic-version", "2023-06-01")
    case "bedrock":
        t.signAWSRequest(req, provider)
    default: // openai
        if apiKey == "-" {
            req.Header.Del("Authorization")
        } else if apiKey != "" {
            req.Header.Set("Authorization", "Bearer "+apiKey)
        }
    }

GetAPIKey is resolveEnvOrValue of the configured key.  SigV4 signing is
kept abstract as a parameter `sign` (it rewrites headers using
wall-clock time and cryptographic digests, outside this embedding). -/

/-- RetryTransport.setAuthHeaders.  `env` models the process environment
feeding GetAPIKey; `sign` models signAWSRequest. -/
def setAuthHeaders (sign : Headers → Headers) (env : Str → Str)
    (modelType : Str) (provider : Provider) (h : Headers) : Headers :=
  let apiKey := resolveEnvOrValue env provider.apiKey
  if modelType = str "anthropic" then
    let h1 :=
      if apiKey = str "-" then hDel h (str "x-api-key")
      else if apiKey ≠ [] then hSet h (str "x-api-key") apiKey
      else h
    hSet h1 (str "anthropic-version") (str "2023-06-01")
  else if modelType = str "bedrock" then
    sign h
  else
    if apiKey = str "-" then hDel h (str "Authorization")
    else if apiKey ≠ [] then hSet h (str "Authorization") (str "Bearer " ++ apiKey)
    else h

/-- C6: the dialect table for authorization headers.  For openai and any
dialect other than anthropic and bedrock: a dash key deletes
Authorization (other headers untouched), an empty key leaves all headers
intact, any other key sets Authorization to Bearer-space-key (other
headers untouched).  For anthropic the same three cases act on x-api-key
(the set case stores the bare key), the anthropic-version header is set
to 2023-06-01 in every case, and no other header changes. -/
theorem setAuthHeaders_dialect_table (sign : Headers → Headers)
    (env : Str → Str) (modelType : Str) (provider : Provider) (h : Headers)
    (hmt : modelType ≠ str "bedrock") :
    ((modelType ≠ str "anthropic") →
      (resolveEnvOrValue env provider.apiKey = str "-" →
        setAuthHeaders sign env modelType provider h (str "Authorization")
            = none ∧
        ∀ k, k ≠ str "Authorization" →
          setAuthHeaders sign env modelType provider h k = h k) ∧
      (resolveEnvOrValue env provider.apiKey = [] →
        setAuthHeaders sign env modelType provider h = h) ∧
      (resolveEnvOrValue env provider.apiKey ≠ str "-" →
       resolveEnvOrValue env provider.apiKey ≠ [] →
        setAuthHeaders sign env modelType provider h (str "Authorization")
            = some (str "Bearer " ++ resolveEnvOrValue env provider.apiKey) ∧
        ∀ k, k ≠ str "Authorization" →
          setAuthHeaders sign env modelType provider h k = h k)) ∧
    ((modelType = str "anthropic") →
      setAuthHeaders sign env modelType provider h (str "anthropic-version")
          = some (str "2023-06-01") ∧
      (resolveEnvOrValue env provider.apiKey = str "-" →
        setAuthHeaders sign env modelType provider h (str "x-api-key") = none ∧
        ∀ k, k ≠ str "x-api-key" → k ≠ str "anthropic-version" →
          setAuthHeaders sign env modelType provider h k = h k) ∧
      (resolveEnvOrValue env provider.apiKey = [] →
        setAuthHeaders sign env modelType provider h (str "x-api-key")
            = h (str "x-api-key") ∧
        ∀ k, k ≠ str "anthropic-version" →
          setAuthHeaders sign env modelType provider h k = h k) ∧
      (resolveEnvOrValue env provider.apiKey ≠ str "-" →
       resolveEnvOrValue env provider.apiKey ≠ [] →
        setAuthHeaders sign env modelType provider h (str "x-api-key")
            = some (resolveEnvOrValue env provider.apiKey) ∧
        ∀ k, k ≠ str "x-api-key" → k ≠ str "anthropic-version" →
          setAuthHeaders sign env modelType provider h k = h k)) := by
  constructor
  · intro hna
    unfold setAuthHeaders
    rw [if_neg hna, if_neg hmt]
    refine ⟨?_, ?_, ?_⟩
    · intro hdash
      rw [if_pos hdash]
      exact ⟨by simp [hDel], fun k hk => by simp [hDel, hk]⟩
    · intro hempty
      rw [if_neg (by simp [hempty]; decide), if_neg (by simp [hempty])]
    · intro hdash hempty
      rw [if_neg hdash, if_pos hempty]
      exact ⟨by simp [hSet], fun k hk => by simp [hSet, hk]⟩
  · intro hanth
    have hxv : str "x-api-key" ≠ str "anthropic-version" := by decide
    unfold setAuthHeaders
    rw [if_pos hanth]
    refine ⟨by simp [hSet], ?_, ?_, ?_⟩
    · intro hdash
      rw [if_pos hdash]
      constructor
      · simp [hSet, hDel, hxv]
      · intro k hk1 hk2
        simp [hSet, hDel, hk1, hk2]
    · intro hempty
      rw [if_neg (by simp [hempty]; decide), if_neg (by simp [hempty])]
      constructor
      · simp [hSet, hxv]
      · intro k hk
        simp [hSet, hk]
    · intro hdash hempty
      rw [if_neg hdash, if_pos hempty]
      constructor
      · simp [hSet, hxv]
      · intro k hk1 hk2
        simp [hSet, hk1, hk2]

/-- An environment mapping KEY to sk-1, used by the C6 witness. -/
def envKey : Str → Str := fun name =>
  if name = str "KEY" then str "sk-1" else []

/-- A provider whose configured api key is the reference dollar-KEY. -/
def providerEnvKey : Provider :=
  { apiKey := str "$KEY"
    stripVersionSeg := false
    parsedURL := { scheme := str "https", host := str "api", path := [],
                   query := [] } }

/-- A starting header map carrying one unrelated header X-Other. -/
def headersOther : Headers := fun k =>
  if k = str "X-Other" then some (str "v") else none

/-- Witness for the C6 dialect table at a concrete input: dialect openai
with key sk-1 resolved from the environment reference dollar-KEY sets
Authorization to Bearer sk-1 and leaves X-Other untouched. -/
theorem setAuthHeaders_dialect_table_witness :
    (str "openai" ≠ str "bedrock" ∧ str "openai" ≠ str "anthropic" ∧
     resolveEnvOrValue envKey providerEnvKey.apiKey ≠ str "-" ∧
     resolveEnvOrValue envKey providerEnvKey.apiKey ≠ []) ∧
    (setAuthHeaders id envKey (str "openai") providerEnvKey headersOther
        (str "Authorization")
        = some (str "Bearer " ++ resolveEnvOrValue envKey providerEnvKey.apiKey) ∧
     setAuthHeaders id envKey (str "openai") providerEnvKey headersOther
        (str "X-Other") = headersOther (str "X-Other")) := by
  have h := (setAuthHeaders_dialect_table id envKey (str "openai")
      providerEnvKey headersOther (by decide)).1 (by decide)
  have h3 := h.2.2 (by decide) (by decide)
  exact ⟨⟨by decide, by decide, by decide, by decide⟩,
    h3.1, h3.2 (str "X-Other") (by decide)⟩

/-! ## Error-response bodies (request.go readErrorBody, transport.go
handleErrorResponse / handleRetryableResponse)

A response body is a byte stream; we model the bytes as a list and track
whether the stream has been closed.  Reading a closed body yields no
bytes, which `callerBytes` makes explicit.  gzip decompression is the
abstract parameter `gunzip`; `none` models a gzip.NewReader or read
error. -/

/-- The gzip decoding pipeline, abstracted: the decompressed stream, or
`none` when the gzip data is invalid. -/
abbrev GUnzip := List Nat → Option (List Nat)

/-- The parts of http.Response the modelled code uses: status code,
headers, and the body stream with its closed flag.  A fresh response from
the HTTP client has bodyClosed = false. -/
structure Response where
  status : Nat
  headers : Headers
  body : List Nat
  bodyClosed : Bool

/-- What a caller can still read from a response body: nothing once the
stream was closed without replacement. -/
def callerBytes (resp : Response) : List Nat :=
  if resp.bodyClosed then [] else resp.body

/-- readErrorBody: when Content-Encoding is gzip, wrap the body in a gzip
reader (failing on invalid data), then read at most 4 KiB through
io.LimitReader. -/
def readErrorBody (gunzip : GUnzip) (resp : Response) :
    Except Str (List Nat) :=
  if hGet resp.headers (str "Content-Encoding") = str "gzip" then
    match gunzip resp.body with
    | none => .error (str "gzip error")
    | some decoded => .ok (decoded.take 4096)
  else
    .ok (resp.body.take 4096)

/-- handleErrorResponse: with include_error_body, read (and possibly
decompress) up to 4 KiB, close the original body, and replace it by a
fresh open in-memory reader over the recorded bytes (nil bytes when the
read failed); the headers are not touched.  Without include_error_body
the response is only logged and returned as is. -/
def handleErrorResponse (gunzip : GUnzip) (includeErrorBody : Bool)
    (resp : Response) : Response :=
  if includeErrorBody then
    let errBody :=
      match readErrorBody gunzip resp with
      | .ok bs => bs
      | .error _ => []
    { resp with body := errBody, bodyClosed := false }
  else
    resp

/-- handleRetryableResponse: with include_error_body the body is read for
logging and then closed; without it the body is drained to io.Discard and
closed.  In both branches the body ends up closed and is never replaced. -/
def handleRetryableResponse (_gunzip : GUnzip) (includeErrorBody : Bool)
    (resp : Response) : Response :=
  if includeErrorBody then
    { resp with bodyClosed := true }
  else
    { resp with bodyClosed := true }

/-- A gunzip oracle that always fails; irrelevant for responses without
the gzip Content-Encoding header. -/
def gunzipNone : GUnzip := fun _ => none

/-- A 400 response with a three-byte body and no Content-Encoding. -/
def respSmall400 : Response :=
  { status := 400
    headers := fun _ => none
    body := [1, 2, 3]
    bodyClosed := false }

/-- C4 counterexample: the claimed equivalence (caller body equals the
4 KiB prefix of the upstream body if and only if include_error_body) is
false with include_error_body = false on a 400 response whose body is
shorter than 4 KiB: the untouched body trivially equals its own 4 KiB
prefix while the right side of the equivalence is false. -/
theorem handleErrorResponse_iff_counterexample :
    ¬ ((callerBytes (handleErrorResponse gunzipNone false respSmall400)
          = respSmall400.body.take 4096) ↔ (false = true)) := by
  decide

/-- C4 (amended): for a terminal 4xx response without gzip encoding, with
include_error_body the caller receives a fresh open in-memory body
holding exactly the first 4 KiB of the original body; without it the
response object is returned untouched (so its full body equals the 4 KiB
prefix exactly when the body is at most 4 KiB — the claimed only-if
direction does not hold).  The if direction of the claim survives, the
only-if does not. -/
theorem handleErrorResponse_records_head4k (gunzip : GUnzip) (resp : Response)
    (henc : hGet resp.headers (str "Content-Encoding") ≠ str "gzip") :
    (callerBytes (handleErrorResponse gunzip true resp)
        = resp.body.take 4096 ∧
     (handleErrorResponse gunzip true resp).bodyClosed = false ∧
     (handleErrorResponse gunzip true resp).headers = resp.headers ∧
     (handleErrorResponse gunzip true resp).status = resp.status) ∧
    handleErrorResponse gunzip false resp = resp := by
  have hread : readErrorBody gunzip resp = .ok (resp.body.take 4096) := by
    unfold readErrorBody
    rw [if_neg henc]
  refine ⟨⟨?_, ?_, ?_, ?_⟩, rfl⟩
  · unfold handleErrorResponse
    rw [if_pos rfl, hread]
    rfl
  · unfold handleErrorResponse
    rw [if_pos rfl, hread]
  · unfold handleErrorResponse
    rw [if_pos rfl, hread]
  · unfold handleErrorResponse
    rw [if_pos rfl, hread]

/-- Witness for the amended C4 theorem at a concrete input: the 400
response with body bytes 1,2,3 and no Content-Encoding header. -/
theorem handleErrorResponse_records_head4k_witness :
    (hGet respSmall400.headers (str "Content-Encoding") ≠ str "gzip") ∧
    callerBytes (handleErrorResponse gunzipNone true respSmall400)
        = respSmall400.body.take 4096 := by
  exact ⟨by decide,
    ((handleErrorResponse_records_head4k gunzipNone respSmall400
        (by decide)).1).1⟩

/-- C9: for a gzip-encoded error response captured with
include_error_body, the replacement body holds the decompressed bytes
(truncated to 4 KiB), while status and every header — Content-Encoding
and Content-Length included — are exactly the original ones, so the body
the caller receives no longer matches the declared encoding. -/
theorem handleErrorResponse_gzip_mismatch (gunzip : GUnzip) (resp : Response)
    (decoded : List Nat)
    (henc : hGet resp.headers (str "Content-Encoding") = str "gzip")
    (hdec : gunzip resp.body = some decoded) :
    (handleErrorResponse gunzip true resp).body = decoded.take 4096 ∧
    (handleErrorResponse gunzip true resp).headers = resp.headers ∧
    hGet (handleErrorResponse gunzip true resp).headers
        (str "Content-Encoding") = str "gzip" ∧
    (handleErrorResponse gunzip true resp).status = resp.status ∧
    (handleErrorResponse gunzip true resp).bodyClosed = false := by
  have hread : readErrorBody gunzip resp = .ok (decoded.take 4096) := by
    unfold readErrorBody
    rw [if_pos henc, hdec]
  have hres : handleErrorResponse gunzip true resp
      = { resp with body := decoded.take 4096, bodyClosed := false } := by
    unfold handleErrorResponse
    rw [if_pos rfl, hread]
  rw [hres]
  exact ⟨rfl, rfl, henc, rfl, rfl⟩

/-- A gzip-encoded 429-style error response: the raw body bytes 9,9 and a
Content-Length header of 2. -/
def respGzip : Response :=
  { status := 404
    headers := fun k =>
      if k = str "Content-Encoding" then some (str "gzip")
      else if k = str "Content-Length" then some (str "2") else none
    body := [9, 9]
    bodyClosed := false }

/-- A gunzip oracle that decodes the two raw bytes of respGzip to five
plain bytes. -/
def gunzipFive : GUnzip := fun bs =>
  if bs = [9, 9] then some [10, 11, 12, 13, 14] else none

/-- Witness for C9 at a concrete input: the gzip-encoded 404 response is
rewritten to carry the five decompressed bytes while keeping the gzip
Content-Encoding and the stale Content-Length of 2. -/
theorem handleErrorResponse_gzip_mismatch_witness :
    (hGet respGzip.headers (str "Content-Encoding") = str "gzip" ∧
     gunzipFive respGzip.body = some [10, 11, 12, 13, 14]) ∧
    ((handleErrorResponse gunzipFive true respGzip).body
        = [10, 11, 12, 13, 14].take 4096 ∧
     hGet (handleErrorResponse gunzipFive true respGzip).headers
        (str "Content-Encoding") = str "gzip") := by
  have h := handleErrorResponse_gzip_mismatch gunzipFive respGzip
      [10, 11, 12, 13, 14] (by decide) (by decide)
  exact ⟨⟨by decide, by decide⟩, h.1, h.2.2.1⟩

/-! ## Request-body buffering and the retry loop (transport.go, RoundTrip)

The preamble of RoundTrip reads the request body through
io.ReadAll(io.LimitReader(req.Body, 100 * 1024 * 1024)): a LimitReader
stops after the cap and reports plain EOF, so the read succeeds with the
stream truncated to the first 100 MiB; no error of any kind is produced
for oversized bodies.  Request bodies are modelled by their length and a
byte-indexing function so that the 100 MiB boundary stays computable.

The attempt loop (cycle, model, attempt) calls tryModel once per
attempt.  One attempt's outcome — provider lookup, body rewrite, and the
upstream network exchange — depends on the outside world, so it is
abstracted as an oracle `upstream` indexed by the 1-based global attempt
counter and fed the buffered body, exactly the data tryModel receives.
Waits, logging and context cancellation are timing concerns outside the
embedding; the classification and state threading mirror the Go source. -/

/-- The 100 MiB cap (constant maxBodySize in RoundTrip). -/
def maxBodySize : Nat := 100 * 1024 * 1024

/-- An in-memory byte stream: its length and its bytes by index. -/
structure ByteSeq where
  len : Nat
  byteAt : Nat → Nat

/-- The body-buffering preamble of RoundTrip:
io.ReadAll(io.LimitReader(body, maxBodySize)) on a readable stream reads
min(len, maxBodySize) bytes and never fails; a nil body buffers as zero
bytes.  (Read errors of the underlying stream are outside the model.) -/
def bufferRequestBody (reqBody : Option ByteSeq) : Except Str ByteSeq :=
  match reqBody with
  | none => .ok { len := 0, byteAt := fun _ => 0 }
  | some b => .ok { len := min b.len maxBodySize, byteAt := b.byteAt }

/-- The buffered bytes as a plain value. -/
def bufferedBody (reqBody : Option ByteSeq) : ByteSeq :=
  match reqBody with
  | none => { len := 0, byteAt := fun _ => 0 }
  | some b => { len := min b.len maxBodySize, byteAt := b.byteAt }

theorem bufferRequestBody_eq (reqBody : Option ByteSeq) :
    bufferRequestBody reqBody = .ok (bufferedBody reqBody) := by
  cases reqBody <;> rfl

/-- isRetryable: HTTP 429 or any status of at least 500. -/
def isRetryable (statusCode : Nat) : Bool :=
  500 ≤ statusCode || statusCode == 429

/-- The post-processing RoundTrip applies to a terminal response before
returning it: statuses of at least 400 pass through handleErrorResponse,
all others are returned untouched. -/
def errTransform (gunzip : GUnzip) (includeErrorBody : Bool)
    (resp : Response) : Response :=
  if 400 ≤ resp.status then handleErrorResponse gunzip includeErrorBody resp
  else resp

/-- Whether one attempt's outcome ends the loop: a response with a
non-retryable status.  Transport errors and retryable statuses keep the
loop going. -/
def isTerminal (outcome : Except Str Response) : Bool :=
  match outcome with
  | .error _ => false
  | .ok resp => !isRetryable resp.status

/-- The model-binding fields the loop uses (struct Model in config.go;
the timeout and interval fields feed only the unmodelled timing). -/
structure Model where
  provider : Str
  model : Str
  type : Str
  attempts : Nat

/-- The request-scoped loop state of RoundTrip: the 1-based global
attempt counter and the last recorded error and retryable response. -/
structure LoopSt where
  total : Nat
  lastErr : Option Str
  lastResp : Option Response

/-- Every response recorded in lastResp has had its body closed. -/
def closedInv (st : LoopSt) : Prop :=
  ∀ resp, st.lastResp = some resp → resp.bodyClosed = true

/-- The innermost loop of RoundTrip: up to n attempts on one model.
Counts the global attempt, consults the oracle, and classifies: transport
error — record lastErr and continue; retryable status — close the body
via handleRetryableResponse, record lastResp and continue; otherwise
return the (possibly error-logged) response together with the attempt
count. -/
def runAttempts (gunzip : GUnzip) (includeErrorBody : Bool)
    (upstream : Nat → Except Str Response) :
    Nat → LoopSt → Except LoopSt (Response × Nat)
  | 0, st => .error st
  | n + 1, st =>
    match upstream (st.total + 1) with
    | .error e =>
      runAttempts gunzip includeErrorBody upstream n
        { total := st.total + 1, lastErr := some e, lastResp := st.lastResp }
    | .ok resp =>
      if isRetryable resp.status then
        runAttempts gunzip includeErrorBody upstream n
          { total := st.total + 1, lastErr := st.lastErr,
            lastResp := some (handleRetryableResponse gunzip includeErrorBody resp) }
      else
        .ok (errTransform gunzip includeErrorBody resp, st.total + 1)

/-- The middle loop of RoundTrip: one pass over the model chain. -/
def runModels (gunzip : GUnzip) (includeErrorBody : Bool)
    (upstream : Nat → Except Str Response) :
    List Model → LoopSt → Except LoopSt (Response × Nat)
  | [], st => .error st
  | m :: ms, st =>
    match runAttempts gunzip includeErrorBody upstream m.attempts st with
    | .error st2 => runModels gunzip includeErrorBody upstream ms st2
    | .ok out => .ok out

/-- The outer loop of RoundTrip: maxCycles passes over the chain. -/
def runCycles (gunzip : GUnzip) (includeErrorBody : Bool)
    (upstream : Nat → Except Str Response) (models : List Model) :
    Nat → LoopSt → Except LoopSt (Response × Nat)
  | 0, st => .error st
  | c + 1, st =>
    match runModels gunzip includeErrorBody upstream models st with
    | .error st2 => runCycles gunzip includeErrorBody upstream models c st2
    | .ok out => .ok out

/-- The outcome of RoundTrip: a response, or a Go error value. -/
inductive RTResult where
  | resp (r : Response)
  | err (e : Str)

/-- RoundTrip: buffer the body, run max(maxCycles, 1) cycles from a fresh
state, and on exhaustion fall back to the last retryable response, else
the last error, else the fixed exhaustion error.  The second component
counts the attempts performed. -/
def roundTrip (gunzip : GUnzip) (includeErrorBody : Bool)
    (upstream : Nat → ByteSeq → Except Str Response)
    (models : List Model) (maxCyclesCfg : Nat) (reqBody : Option ByteSeq) :
    RTResult × Nat :=
  match bufferRequestBody reqBody with
  | .error e => (.err e, 0)
  | .ok body =>
    match runCycles gunzip includeErrorBody (fun n => upstream n body) models
        (max maxCyclesCfg 1) { total := 0, lastErr := none, lastResp := none } with
    | .ok (resp, n) => (.resp resp, n)
    | .error st =>
      match st.lastResp with
      | some resp => (.resp resp, st.total)
      | none =>
        match st.lastErr with
        | some e => (.err e, st.total)
        | none => (.err (str "all attempts exhausted"), st.total)

/-- Total attempts in one pass over the chain. -/
def modelAttemptsSum (models : List Model) : Nat :=
  (models.map (fun m => m.attempts)).sum

/-- Total attempts RoundTrip performs when nothing terminates early:
max(maxCycles, 1) times the per-cycle attempt count. -/
def scheduledAttempts (models : List Model) (maxCyclesCfg : Nat) : Nat :=
  (max maxCyclesCfg 1) * modelAttemptsSum models

theorem handleRetryableResponse_closed (gunzip : GUnzip)
    (includeErrorBody : Bool) (resp : Response) :
    (handleRetryableResponse gunzip includeErrorBody resp).bodyClosed = true := by
  unfold handleRetryableResponse
  split <;> rfl

/-- roundTrip, with the body buffering already resolved. -/
theorem roundTrip_unfold (gunzip : GUnzip) (includeErrorBody : Bool)
    (upstream : Nat → ByteSeq → Except Str Response)
    (models : List Model) (maxCyclesCfg : Nat) (reqBody : Option ByteSeq) :
    roundTrip gunzip includeErrorBody upstream models maxCyclesCfg reqBody
      = (match runCycles gunzip includeErrorBody
            (fun n => upstream n (bufferedBody reqBody)) models
            (max maxCyclesCfg 1)
            { total := 0, lastErr := none, lastResp := none } with
        | .ok (resp, n) => (RTResult.resp resp, n)
        | .error st =>
          match st.lastResp with
          | some resp => (RTResult.resp resp, st.total)
          | none =>
            match st.lastErr with
            | some e => (RTResult.err e, st.total)
            | none => (RTResult.err (str "all attempts exhausted"), st.total)) := by
  cases reqBody <;> rfl

/-! ### Loop lemmas: exhaustion and first-terminal-attempt behaviour -/

theorem runAttempts_exhaust (gunzip : GUnzip) (includeErrorBody : Bool)
    (upstream : Nat → Except Str Response) :
    ∀ (n : Nat) (st : LoopSt),
      (∀ j, st.total < j → j ≤ st.total + n → isTerminal (upstream j) = false) →
      ∃ st2, runAttempts gunzip includeErrorBody upstream n st = .error st2 ∧
        st2.total = st.total + n ∧ (closedInv st → closedInv st2) := by
  intro n
  induction n with
  | zero => exact fun st _ => ⟨st, rfl, rfl, fun hinv => hinv⟩
  | succ k ih =>
    intro st hall
    have h1 : isTerminal (upstream (st.total + 1)) = false :=
      hall (st.total + 1) (by omega) (by omega)
    cases htry : upstream (st.total + 1) with
    | error e =>
      obtain ⟨st2, heq, htot, hinv⟩ := ih
        { total := st.total + 1, lastErr := some e, lastResp := st.lastResp }
        (fun j hj1 hj2 => hall j (by simp at hj1; omega) (by simp at hj2; omega))
      refine ⟨st2, ?_, by simp at htot; omega, ?_⟩
      · simp only [runAttempts, htry]
        exact heq
      · intro hcl
        exact hinv (fun resp hresp => hcl resp hresp)
    | ok resp =>
      rw [htry] at h1
      have hr : isRetryable resp.status = true := by
        simpa [isTerminal] using h1
      obtain ⟨st2, heq, htot, hinv⟩ := ih
        { total := st.total + 1, lastErr := st.lastErr,
          lastResp := some (handleRetryableResponse gunzip includeErrorBody resp) }
        (fun j hj1 hj2 => hall j (by simp at hj1; omega) (by simp at hj2; omega))
      refine ⟨st2, ?_, by simp at htot; omega, ?_⟩
      · simp only [runAttempts, htry, hr, if_true]
        exact heq
      · intro _
        refine hinv ?_
        intro resp2 hresp2
        simp only [Option.some.injEq] at hresp2
        rw [← hresp2]
        exact handleRetryableResponse_closed gunzip includeErrorBody resp

theorem runAttempts_hit (gunzip : GUnzip) (includeErrorBody : Bool)
    (upstream : Nat → Except Str Response) (k : Nat) (resp : Response)
    (hbefore : ∀ j, j < k → 1 ≤ j → isTerminal (upstream j) = false)
    (hat : upstream k = .ok resp)
    (hterm : isRetryable resp.status = false) :
    ∀ (n : Nat) (st : LoopSt), st.total < k → k ≤ st.total + n →
      runAttempts gunzip includeErrorBody upstream n st
        = .ok (errTransform gunzip includeErrorBody resp, k) := by
  intro n
  induction n with
  | zero => intro st h1 h2; omega
  | succ m ih =>
    intro st h1 h2
    by_cases hfirst : k = st.total + 1
    · subst hfirst
      simp [runAttempts, hat, hterm]
    · have hnt : isTerminal (upstream (st.total + 1)) = false :=
        hbefore (st.total + 1) (by omega) (by omega)
      cases htry : upstream (st.total + 1) with
      | error e =>
        simp only [runAttempts, htry]
        exact ih { total := st.total + 1, lastErr := some e,
                   lastResp := st.lastResp } (by simp; omega) (by simp; omega)
      | ok r2 =>
        rw [htry] at hnt
        have hr2 : isRetryable r2.status = true := by
          simpa [isTerminal] using hnt
        simp only [runAttempts, htry, hr2, if_true]
        exact ih { total := st.total + 1, lastErr := st.lastErr,
                   lastResp := some (handleRetryableResponse gunzip
                     includeErrorBody r2) } (by simp; omega) (by simp; omega)

theorem runModels_exhaust (gunzip : GUnzip) (includeErrorBody : Bool)
    (upstream : Nat → Except Str Response) :
    ∀ (models : List Model) (st : LoopSt),
      (∀ j, st.total < j → j ≤ st.total + modelAttemptsSum models →
        isTerminal (upstream j) = false) →
      ∃ st2, runModels gunzip includeErrorBody upstream models st = .error st2 ∧
        st2.total = st.total + modelAttemptsSum models ∧
        (closedInv st → closedInv st2) := by
  intro models
  induction models with
  | nil =>
    intro st _
    exact ⟨st, rfl, by simp [modelAttemptsSum], fun hinv => hinv⟩
  | cons m ms ih =>
    intro st hall
    have hsum : modelAttemptsSum (m :: ms)
        = m.attempts + modelAttemptsSum ms := by
      simp [modelAttemptsSum]
    obtain ⟨st2, heq, htot, hinv⟩ := runAttempts_exhaust gunzip includeErrorBody
      upstream m.attempts st
      (fun j hj1 hj2 => hall j hj1 (by omega))
    obtain ⟨st3, heq3, htot3, hinv3⟩ := ih st2
      (fun j hj1 hj2 => hall j (by omega) (by omega))
    refine ⟨st3, ?_, by omega, fun hcl => hinv3 (hinv hcl)⟩
    simp only [runModels, heq]
    exact heq3

theorem runModels_hit (gunzip : GUnzip) (includeErrorBody : Bool)
    (upstream : Nat → Except Str Response) (k : Nat) (resp : Response)
    (hbefore : ∀ j, j < k → 1 ≤ j → isTerminal (upstream j) = false)
    (hat : upstream k = .ok resp)
    (hterm : isRetryable resp.status = false) :
    ∀ (models : List Model) (st : LoopSt),
      st.total < k → k ≤ st.total + modelAttemptsSum models →
      runModels gunzip includeErrorBody upstream models st
        = .ok (errTransform gunzip includeErrorBody resp, k) := by
  intro models
  induction models with
  | nil =>
    intro st h1 h2
    simp [modelAttemptsSum] at h2
    omega
  | cons m ms ih =>
    intro st h1 h2
    have hsum : modelAttemptsSum (m :: ms)
        = m.attempts + modelAttemptsSum ms := by
      simp [modelAttemptsSum]
    by_cases hin : k ≤ st.total + m.attempts
    · have := runAttempts_hit gunzip includeErrorBody upstream k resp hbefore
        hat hterm m.attempts st h1 hin
      simp only [runModels, this]
    · obtain ⟨st2, heq, htot, _⟩ := runAttempts_exhaust gunzip includeErrorBody
        upstream m.attempts st
        (fun j hj1 hj2 => hbefore j (by omega) (by omega))
      simp only [runModels, heq]
      exact ih st2 (by omega) (by omega)

theorem runCycles_exhaust (gunzip : GUnzip) (includeErrorBody : Bool)
    (upstream : Nat → Except Str Response) (models : List Model) :
    ∀ (c : Nat) (st : LoopSt),
      (∀ j, st.total < j → j ≤ st.total + c * modelAttemptsSum models →
        isTerminal (upstream j) = false) →
      ∃ st2, runCycles gunzip includeErrorBody upstream models c st = .error st2 ∧
        st2.total = st.total + c * modelAttemptsSum models ∧
        (closedInv st → closedInv st2) := by
  intro c
  induction c with
  | zero => exact fun st _ => ⟨st, rfl, by simp, fun hinv => hinv⟩
  | succ d ih =>
    intro st hall
    obtain ⟨st2, heq, htot, hinv⟩ := runModels_exhaust gunzip includeErrorBody
      upstream models st
      (fun j hj1 hj2 => hall j hj1 (by
        have : modelAttemptsSum models ≤ (d + 1) * modelAttemptsSum models := by
          have := Nat.le_mul_of_pos_left (modelAttemptsSum models)
            (show 0 < d + 1 by omega)
          omega
        omega))
    obtain ⟨st3, heq3, htot3, hinv3⟩ := ih st2
      (fun j hj1 hj2 => hall j (by omega) (by
        have hmul : (d + 1) * modelAttemptsSum models
            = modelAttemptsSum models + d * modelAttemptsSum models := by ring
        omega))
    refine ⟨st3, ?_, ?_, fun hcl => hinv3 (hinv hcl)⟩
    · simp only [runCycles, heq]
      exact heq3
    · have hmul : (d + 1) * modelAttemptsSum models
          = modelAttemptsSum models + d * modelAttemptsSum models := by ring
      omega

theorem runCycles_hit (gunzip : GUnzip) (includeErrorBody : Bool)
    (upstream : Nat → Except Str Response) (models : List Model) (k : Nat)
    (resp : Response)
    (hbefore : ∀ j, j < k → 1 ≤ j → isTerminal (upstream j) = false)
    (hat : upstream k = .ok resp)
    (hterm : isRetryable resp.status = false) :
    ∀ (c : Nat) (st : LoopSt),
      st.total < k → k ≤ st.total + c * modelAttemptsSum models →
      runCycles gunzip includeErrorBody upstream models c st
        = .ok (errTransform gunzip includeErrorBody resp, k) := by
  intro c
  induction c with
  | zero =>
    intro st h1 h2
    simp at h2
    omega
  | succ d ih =>
    intro st h1 h2
    by_cases hin : k ≤ st.total + modelAttemptsSum models
    · have := runModels_hit gunzip includeErrorBody upstream k resp hbefore
        hat hterm models st h1 hin
      simp only [runCycles, this]
    · obtain ⟨st2, heq, htot, _⟩ := runModels_exhaust gunzip includeErrorBody
        upstream models st
        (fun j hj1 hj2 => hbefore j (by omega) (by omega))
      simp only [runCycles, heq]
      refine ih st2 (by omega) (by
        have hmul : (d + 1) * modelAttemptsSum models
            = modelAttemptsSum models + d * modelAttemptsSum models := by ring
        omega)

/-- The first attempt with a non-retryable outcome, at global index k,
ends RoundTrip with exactly that response (error-logged when 4xx) after
exactly k upstream calls. -/
theorem roundTrip_hit (gunzip : GUnzip) (includeErrorBody : Bool)
    (upstream : Nat → ByteSeq → Except Str Response) (models : List Model)
    (maxCyclesCfg : Nat) (reqBody : Option ByteSeq) (k : Nat) (resp : Response)
    (hk1 : 1 ≤ k) (hk2 : k ≤ scheduledAttempts models maxCyclesCfg)
    (hbefore : ∀ j, j < k → 1 ≤ j →
      isTerminal (upstream j (bufferedBody reqBody)) = false)
    (hat : upstream k (bufferedBody reqBody) = .ok resp)
    (hterm : isRetryable resp.status = false) :
    roundTrip gunzip includeErrorBody upstream models maxCyclesCfg reqBody
      = (.resp (errTransform gunzip includeErrorBody resp), k) := by
  rw [roundTrip_unfold]
  have := runCycles_hit gunzip includeErrorBody
    (fun n => upstream n (bufferedBody reqBody)) models k resp hbefore hat hterm
    (max maxCyclesCfg 1) { total := 0, lastErr := none, lastResp := none }
    (by simpa using hk1)
    (by simpa [scheduledAttempts] using hk2)
  rw [this]

/-- When every scheduled attempt is non-terminal, RoundTrip performs all
of them, and any response it returns is the stored retryable one, whose
body was closed before storing. -/
theorem roundTrip_exhaust (gunzip : GUnzip) (includeErrorBody : Bool)
    (upstream : Nat → ByteSeq → Except Str Response) (models : List Model)
    (maxCyclesCfg : Nat) (reqBody : Option ByteSeq)
    (hall : ∀ j, 1 ≤ j → j ≤ scheduledAttempts models maxCyclesCfg →
      isTerminal (upstream j (bufferedBody reqBody)) = false) :
    (roundTrip gunzip includeErrorBody upstream models maxCyclesCfg reqBody).2
        = scheduledAttempts models maxCyclesCfg ∧
    ∀ resp,
      (roundTrip gunzip includeErrorBody upstream models maxCyclesCfg
        reqBody).1 = .resp resp → resp.bodyClosed = true := by
  obtain ⟨st2, heq, htot, hinv⟩ := runCycles_exhaust gunzip includeErrorBody
    (fun n => upstream n (bufferedBody reqBody)) models (max maxCyclesCfg 1)
    { total := 0, lastErr := none, lastResp := none }
    (fun j hj1 hj2 => hall j (by simpa using hj1)
      (by simpa [scheduledAttempts] using hj2))
  have hcl : closedInv st2 := hinv (fun resp hresp => by simp at hresp)
  rw [roundTrip_unfold, heq]
  simp only at htot
  cases hlr : st2.lastResp with
  | some resp0 =>
    simp only [hlr]
    refine ⟨by simpa [scheduledAttempts] using htot, ?_⟩
    intro resp hresp
    simp only [RTResult.resp.injEq] at hresp
    rw [← hresp]
    exact hcl resp0 hlr
  | none =>
    simp only [hlr]
    cases hle : st2.lastErr with
    | some e =>
      simp only [hle]
      refine ⟨by simpa [scheduledAttempts] using htot, ?_⟩
      intro resp hresp
      simp at hresp
    | none =>
      simp only [hle]
      refine ⟨by simpa [scheduledAttempts] using htot, ?_⟩
      intro resp hresp
      simp at hresp

/-! ### Concrete fixtures for the loop claims -/

/-- A 200 response with an open empty body. -/
def respOk200 : Response :=
  { status := 200, headers := fun _ => none, body := [], bodyClosed := false }

/-- A 429 response with an open empty body. -/
def respRetry429 : Response :=
  { status := 429, headers := fun _ => none, body := [], bodyClosed := false }

/-- The 429 response after handleRetryableResponse closed its body. -/
def respRetry429Closed : Response :=
  { status := 429, headers := fun _ => none, body := [], bodyClosed := true }

/-- One model binding with a single attempt. -/
def modelOne : Model :=
  { provider := str "p", model := str "m", type := str "openai", attempts := 1 }

/-- One model binding with two attempts. -/
def modelTwo : Model :=
  { provider := str "p", model := str "m", type := str "openai", attempts := 2 }

/-- An upstream that always answers 200. -/
def upstreamOk : Nat → ByteSeq → Except Str Response := fun _ _ => .ok respOk200

/-- An upstream that always answers 429. -/
def upstreamAlways429 : Nat → ByteSeq → Except Str Response :=
  fun _ _ => .ok respRetry429

/-- An upstream that answers 429 on the first attempt and 200 afterwards. -/
def upstreamSecond200 : Nat → ByteSeq → Except Str Response :=
  fun n _ => if n ≤ 1 then .ok respRetry429 else .ok respOk200

/-- A request body one byte over the 100 MiB cap. -/
def bigBody : ByteSeq := { len := maxBodySize + 1, byteAt := fun _ => 0 }

/-- A request body of exactly 100 MiB. -/
def capBody : ByteSeq := { len := maxBodySize, byteAt := fun _ => 7 }

/-! ### C1: the 100 MiB body cap -/

/-- C1 counterexample: a body one byte over the 100 MiB cap does not make
RoundTrip fail — the buffering step succeeds and silently truncates the
stream to its first 100 MiB (io.LimitReader reports EOF at the cap, which
io.ReadAll treats as success), an upstream attempt is still made, and the
upstream response is returned.  No BodyTooLarge error exists in the
code. -/
theorem bodyTooLarge_counterexample :
    bufferRequestBody (some bigBody)
        = .ok { len := maxBodySize, byteAt := fun _ => 0 } ∧
    roundTrip gunzipNone false upstreamOk [modelOne] 1 (some bigBody)
        = (.resp respOk200, 1) := by
  constructor
  · rfl
  · rfl

/-- C1 (amended): RoundTrip buffers the request body to at most 100 MiB
and never fails on size: a body of at most 100 MiB (in particular exactly
100 MiB) is buffered in full, a larger one is silently truncated to its
first 100 MiB, and the call depends on the upstream oracle only through
its answers on the buffered bytes — the buffered (possibly truncated)
body is what every attempt forwards. -/
theorem roundTrip_truncates_oversized_body (b : ByteSeq) (gunzip : GUnzip)
    (includeErrorBody : Bool) (models : List Model) (maxCyclesCfg : Nat)
    (upstream upstream2 : Nat → ByteSeq → Except Str Response) :
    bufferRequestBody (some b)
        = .ok { len := min b.len maxBodySize, byteAt := b.byteAt } ∧
    (b.len ≤ maxBodySize → bufferRequestBody (some b) = .ok b) ∧
    ((∀ j, upstream j (bufferedBody (some b))
        = upstream2 j (bufferedBody (some b))) →
      roundTrip gunzip includeErrorBody upstream models maxCyclesCfg (some b)
        = roundTrip gunzip includeErrorBody upstream2 models maxCyclesCfg
            (some b)) := by
  refine ⟨rfl, ?_, ?_⟩
  · intro hle
    cases b with
    | mk l f =>
      simp only [bufferRequestBody]
      simp only at hle
      rw [Nat.min_eq_left hle]
  · intro hagree
    have hfun : (fun n => upstream n (bufferedBody (some b)))
        = (fun n => upstream2 n (bufferedBody (some b))) := funext hagree
    rw [roundTrip_unfold, roundTrip_unfold, hfun]

/-- Witness for the amended C1 theorem at the cap boundary: a body of
exactly 100 MiB is buffered in full. -/
theorem roundTrip_truncates_oversized_body_witness :
    (capBody.len ≤ maxBodySize ∧
     (∀ j, upstreamOk j (bufferedBody (some capBody))
        = upstreamOk j (bufferedBody (some capBody)))) ∧
    (bufferRequestBody (some capBody) = .ok capBody ∧
     roundTrip gunzipNone false upstreamOk [modelOne] 1 (some capBody)
        = roundTrip gunzipNone false upstreamOk [modelOne] 1 (some capBody)) := by
  have h := roundTrip_truncates_oversized_body capBody gunzipNone false
    [modelOne] 1 upstreamOk upstreamOk
  exact ⟨⟨Nat.le_refl _, fun j => rfl⟩, h.2.1 (Nat.le_refl _),
    h.2.2 (fun j => rfl)⟩

/-! ### C7: status classification and termination of the loop -/

/-- C7: a status is retryable exactly when it is 429 or at least 500; the
first attempt whose outcome is a response with a non-retryable status (at
global index k, every earlier attempt being a transport error or a
retryable status) ends RoundTrip immediately — exactly k upstream calls —
and that response is returned to the caller: unchanged for statuses below
400, after the handleErrorResponse logging step for the terminal client
errors 400–428 and 430–499. -/
theorem retry_status_classification (gunzip : GUnzip) (includeErrorBody : Bool)
    (upstream : Nat → ByteSeq → Except Str Response) (models : List Model)
    (maxCyclesCfg : Nat) (reqBody : Option ByteSeq) (k : Nat) (resp : Response)
    (hk1 : 1 ≤ k) (hk2 : k ≤ scheduledAttempts models maxCyclesCfg)
    (hbefore : ∀ j, j < k → 1 ≤ j →
      isTerminal (upstream j (bufferedBody reqBody)) = false)
    (hat : upstream k (bufferedBody reqBody) = .ok resp)
    (hterm : isRetryable resp.status = false) :
    (∀ statusCode, isRetryable statusCode = true ↔
        (statusCode = 429 ∨ 500 ≤ statusCode)) ∧
    roundTrip gunzip includeErrorBody upstream models maxCyclesCfg reqBody
        = (.resp (errTransform gunzip includeErrorBody resp), k) ∧
    (resp.status < 400 → errTransform gunzip includeErrorBody resp = resp) ∧
    (400 ≤ resp.status → errTransform gunzip includeErrorBody resp
        = handleErrorResponse gunzip includeErrorBody resp) := by
  refine ⟨?_, roundTrip_hit gunzip includeErrorBody upstream models maxCyclesCfg
    reqBody k resp hk1 hk2 hbefore hat hterm, ?_, ?_⟩
  · intro s
    simp only [isRetryable, Bool.or_eq_true, decide_eq_true_eq, beq_iff_eq]
    omega
  · intro hlt
    unfold errTransform
    rw [if_neg (by omega)]
  · intro hge
    unfold errTransform
    rw [if_pos hge]

/-- Witness for C7 at a concrete input: one model with two attempts, the
upstream answering 429 then 200; the 200 ends the loop at the second
attempt and is returned unchanged. -/
theorem retry_status_classification_witness :
    (1 ≤ 2 ∧ 2 ≤ scheduledAttempts [modelTwo] 1 ∧
     (∀ j, j < 2 → 1 ≤ j →
        isTerminal (upstreamSecond200 j (bufferedBody none)) = false) ∧
     upstreamSecond200 2 (bufferedBody none) = .ok respOk200 ∧
     isRetryable respOk200.status = false) ∧
    roundTrip gunzipNone false upstreamSecond200 [modelTwo] 1 none
        = (.resp (errTransform gunzipNone false respOk200), 2) := by
  have hb : ∀ j, j < 2 → 1 ≤ j →
      isTerminal (upstreamSecond200 j (bufferedBody none)) = false := by
    intro j hj hj1
    have : j = 1 := by omega
    subst this
    rfl
  refine ⟨⟨by omega, by decide, hb, rfl, by decide⟩, ?_⟩
  exact (retry_status_classification gunzipNone false upstreamSecond200
    [modelTwo] 1 none 2 respOk200 (by omega) (by decide) hb rfl
    (by decide)).2.1

/-! ### C8: the exhaustion return path -/

/-- C8: when every scheduled attempt fails or returns a retryable status,
RoundTrip performs all of them and hands back the last recorded retryable
response; that response's body was read or drained and closed by
handleRetryableResponse before it was stored and is never re-attached, so
the caller receives a closed body yielding no bytes (for either value of
include_error_body). -/
theorem exhaustion_returns_closed_body (gunzip : GUnzip)
    (includeErrorBody : Bool)
    (upstream : Nat → ByteSeq → Except Str Response) (models : List Model)
    (maxCyclesCfg : Nat) (reqBody : Option ByteSeq) (resp : Response) (n : Nat)
    (hall : ∀ j, j ≤ scheduledAttempts models maxCyclesCfg → 1 ≤ j →
      isTerminal (upstream j (bufferedBody reqBody)) = false)
    (hres : roundTrip gunzip includeErrorBody upstream models maxCyclesCfg
      reqBody = (.resp resp, n)) :
    resp.bodyClosed = true ∧ callerBytes resp = [] ∧
    n = scheduledAttempts models maxCyclesCfg := by
  have h := roundTrip_exhaust gunzip includeErrorBody upstream models
    maxCyclesCfg reqBody (fun j hj1 hj2 => hall j hj2 hj1)
  have h1 : resp.bodyClosed = true := h.2 resp (by rw [hres])
  refine ⟨h1, by simp [callerBytes, h1], ?_⟩
  have h2 := h.1
  rw [hres] at h2
  exact h2

/-- Witness for C8 at a concrete input: one model, one attempt, one
cycle, the upstream always answering 429; the returned response is the
stored 429 with its body closed, after exactly one attempt. -/
theorem exhaustion_returns_closed_body_witness :
    ((∀ j, j ≤ scheduledAttempts [modelOne] 1 → 1 ≤ j →
        isTerminal (upstreamAlways429 j (bufferedBody none)) = false) ∧
     roundTrip gunzipNone true upstreamAlways429 [modelOne] 1 none
        = (.resp respRetry429Closed, 1)) ∧
    (respRetry429Closed.bodyClosed = true ∧
     callerBytes respRetry429Closed = [] ∧
     1 = scheduledAttempts [modelOne] 1) := by
  have hsched : scheduledAttempts [modelOne] 1 = 1 := by decide
  have hall : ∀ j, j ≤ scheduledAttempts [modelOne] 1 → 1 ≤ j →
      isTerminal (upstreamAlways429 j (bufferedBody none)) = false := by
    intro j hj hj1
    rfl
  refine ⟨⟨hall, rfl⟩, ?_⟩
  exact exhaustion_returns_closed_body gunzipNone true upstreamAlways429
    [modelOne] 1 none respRetry429Closed 1 hall rfl

end HydraLLM
